import Mathlib

/-!
Shallow embedding of the `angel-synth` polyphonic synthesizer core
(`src/synth.rs`, `src/audio.rs`, `src/scope.rs`) in Lean 4.

Modelling conventions:
* `f32` arithmetic is modelled over `ℚ`.  The transcendental `f32` routines
  (`sin`, `cos`, `sqrt`, `powf`, `tanh`) are abstracted as an explicit
  `MathOps` record of functions `ℚ → ℚ`; theorems that need facts about them
  take those facts as hypotheses that hold of the real routines.
* `u32` arithmetic with `wrapping_mul`/`wrapping_add` is modelled on `Nat`
  with an explicit `% 2^32`.
* `f32::clamp(lo, hi)` is `min hi (max lo ·)` when `lo ≤ hi`; the Rust
  version panics when `lo > hi`, which we record with a separate checked
  clamp where a claim quantifies over inputs that invert the bounds.
* Rust `f32` constants are embedded as the exact rational value of the
  `f32` bit pattern (`TAU`, `SQRT_2`, `f32::EPSILON`).
-/

namespace AngelSynth

/-- `2^32`, the modulus of `u32` wrapping arithmetic. -/
def u32Mod : Nat := 4294967296

/-- The exact rational value of the `f32` constant `std::f32::consts::TAU`. -/
def tauF32 : ℚ := 13176795 / 2097152

/-- The exact rational value of the `f32` constant `std::f32::consts::SQRT_2`. -/
def sqrt2F32 : ℚ := 11863283 / 8388608

/-- The exact rational value of `f32::EPSILON` (`2^-23`). -/
def epsF32 : ℚ := 1 / 8388608

/-- Rust `x.clamp(lo, hi)` for ordered bounds `lo ≤ hi`. -/
def ratClamp (x lo hi : ℚ) : ℚ := min hi (max lo x)

/-- Rust `x.clamp(lo, hi)` including its panic behaviour: `none` models the
panic raised when `lo > hi`. -/
def ratClampChecked (x lo hi : ℚ) : Option ℚ :=
  if lo ≤ hi then some (ratClamp x lo hi) else none

/-- Rust `f32::fract` (fractional part, truncating toward zero). -/
def ratFract (x : ℚ) : ℚ := x - (if x < 0 then (⌈x⌉ : ℚ) else (⌊x⌋ : ℚ))

/-- Abstraction of the `f32` transcendental routines used by `synth.rs`:
`sin`, `cos`, `sqrt`, `2^x` (`2_f32.powf`), `10^x` (`10_f32.powf`) and
`tanh`, each as an opaque-to-the-model function `ℚ → ℚ`. -/
structure MathOps where
  sin : ℚ → ℚ
  cos : ℚ → ℚ
  sqrt : ℚ → ℚ
  pow2 : ℚ → ℚ
  pow10 : ℚ → ℚ
  tanh : ℚ → ℚ

/-- A trivial instantiation of `MathOps`, used to evaluate the model at
concrete inputs where the transcendental values do not matter. -/
def MathOps.flat : MathOps where
  sin := fun _ => 0
  cos := fun _ => 0
  sqrt := fun _ => 1
  pow2 := fun _ => 1
  pow10 := fun _ => 1
  tanh := fun _ => 0

/-- `enum Waveform` from `synth.rs`. -/
inductive Waveform where
  | Sine
  | Square
  | Saw
  | Triangle
  deriving DecidableEq, Repr

/-- `enum InstrumentKind` from `synth.rs`. -/
inductive InstrumentKind where
  | Keys
  | Bass
  | Lead
  | Pad
  deriving DecidableEq, Repr

/-- `enum EnvStage` from `synth.rs`. -/
inductive EnvStage where
  | Idle
  | Attack
  | Decay
  | Sustain
  | Release
  deriving DecidableEq, Repr

/-- `struct SynthParams` from `synth.rs`. -/
structure SynthParams where
  gain : ℚ
  attack_seconds : ℚ
  decay_seconds : ℚ
  sustain_level : ℚ
  release_seconds : ℚ
  instrument : InstrumentKind
  waveform : Waveform
  filter_cutoff_hz : ℚ
  filter_resonance : ℚ
  vibrato_depth_semitones : ℚ
  vibrato_rate_hz : ℚ
  unison_spread_cents : ℚ
  autotune_amount : ℚ
  noise_mix : ℚ
  eq_low_gain_db : ℚ
  eq_low_freq_hz : ℚ
  eq_mid_gain_db : ℚ
  eq_mid_freq_hz : ℚ
  eq_mid_q : ℚ
  eq_high_gain_db : ℚ
  eq_high_freq_hz : ℚ
  deriving DecidableEq, Repr

/-- `SynthParams::default()` from `synth.rs`. -/
def SynthParams.default : SynthParams where
  gain := 65/100
  attack_seconds := 1/100
  decay_seconds := 2/10
  sustain_level := 7/10
  release_seconds := 35/100
  instrument := .Keys
  waveform := .Saw
  filter_cutoff_hz := 4000
  filter_resonance := 2/10
  vibrato_depth_semitones := 15/100
  vibrato_rate_hz := 4
  unison_spread_cents := 6
  autotune_amount := 0
  noise_mix := 3/100
  eq_low_gain_db := 0
  eq_low_freq_hz := 120
  eq_mid_gain_db := 0
  eq_mid_freq_hz := 1000
  eq_mid_q := 8/10
  eq_high_gain_db := 0
  eq_high_freq_hz := 6000

/-- `Waveform::sample` from `synth.rs`. -/
def Waveform.sample (ops : MathOps) (w : Waveform) (phase : ℚ) : ℚ :=
  match w with
  | .Sine => ops.sin (tauF32 * phase)
  | .Square => if phase < 1/2 then 1 else -1
  | .Saw => 2 * (phase - 1/2)
  | .Triangle => 1 - 4 * |phase - 1/2|

/-- `midi_to_freq` from `synth.rs`: `440 * 2^((note - 69)/12)`. -/
def midiToFreq (ops : MathOps) (note : Nat) : ℚ :=
  440 * ops.pow2 (((note : ℚ) - 69) / 12)

/-- `struct VoiceState` from `synth.rs`.  `noise_seed` is a `u32`, kept in
`Nat` reduced mod `2^32`. -/
structure VoiceState where
  note : Nat
  phase : ℚ
  env_level : ℚ
  stage : EnvStage
  gate : Bool
  filter_state : ℚ
  lfo_phase : ℚ
  noise_seed : Nat
  deriving DecidableEq, Repr

/-- `VoiceState::new` from `synth.rs`: fresh voice for `note`, idle, gate
off, seed `note.wrapping_mul(1_104_607)`. -/
def VoiceState.new (note : Nat) : VoiceState where
  note := note
  phase := 0
  env_level := 0
  stage := .Idle
  gate := false
  filter_state := 0
  lfo_phase := 0
  noise_seed := note * 1104607 % u32Mod

/-- `VoiceState::set_gate` from `synth.rs`: a rising edge enters Attack, a
falling edge enters Release unless the voice is Idle. -/
def VoiceState.set_gate (v : VoiceState) (gate : Bool) : VoiceState :=
  let v1 :=
    if gate && !v.gate then
      { v with stage := .Attack }
    else if !gate && v.gate then
      if v.stage ≠ .Idle then { v with stage := .Release } else v
    else v
  { v1 with gate := gate }

/-- `VoiceState::advance_envelope` from `synth.rs`: one per-sample ADSR
update of `env_level`/`stage`. -/
def VoiceState.advance_envelope (v : VoiceState) (params : SynthParams)
    (sample_rate : ℚ) : VoiceState :=
  match v.stage with
  | .Idle => { v with env_level := 0 }
  | .Attack =>
    let step : ℚ :=
      if params.attack_seconds ≤ 0 then 1
      else 1 / (params.attack_seconds * sample_rate)
    let lvl := v.env_level + step
    if 1 ≤ lvl then { v with env_level := 1, stage := .Decay }
    else { v with env_level := lvl }
  | .Decay =>
    let target := ratClamp params.sustain_level 0 1
    let step : ℚ :=
      if params.decay_seconds ≤ 0 then 1
      else 1 / (params.decay_seconds * sample_rate)
    let lvl := v.env_level - step * (1 - target)
    if lvl ≤ target then { v with env_level := target, stage := .Sustain }
    else { v with env_level := lvl }
  | .Sustain => { v with env_level := ratClamp params.sustain_level 0 1 }
  | .Release =>
    let step : ℚ :=
      if params.release_seconds ≤ 0 then 1
      else 1 / (params.release_seconds * sample_rate)
    let lvl := v.env_level - step
    if lvl ≤ 0 then { v with env_level := 0, stage := .Idle }
    else { v with env_level := lvl }

/-- `VoiceState::is_finished` from `synth.rs`:
`matches!(self.stage, EnvStage::Idle) && !self.gate`. -/
def VoiceState.is_finished (v : VoiceState) : Bool :=
  (match v.stage with | .Idle => true | _ => false) && !v.gate

/-- `VoiceState::next_noise` from `synth.rs`: one step of the 32-bit LCG
`seed = seed * 1664525 + 1013904223 (mod 2^32)` mapped to `[-1, 1]` via
`((seed >> 9) & 0x7FFFFF) / 0x7FFFFF * 2 - 1`.  Returns the emitted value
and the voice with the advanced seed. -/
def VoiceState.next_noise (v : VoiceState) : ℚ × VoiceState :=
  let seed := (v.noise_seed * 1664525 + 1013904223) % u32Mod
  let value : ℚ := (((seed >>> 9) &&& 8388607 : Nat) : ℚ) / 8388607
  (value * 2 - 1, { v with noise_seed := seed })

/-- `VoiceState::apply_filter` from `synth.rs`: one-pole lowpass with the
self-reinforcing resonance term.  Returns the output and the voice with the
updated `filter_state`.  The cutoff clamp's bounds are ordered whenever
`min(sample_rate, 48000) * 0.45 ≥ 60`; `ratClampChecked` records the Rust
panic outside that range. -/
def VoiceState.apply_filter (v : VoiceState) (input : ℚ) (params : SynthParams)
    (sample_rate : ℚ) : ℚ × VoiceState :=
  let cutoff := ratClamp params.filter_cutoff_hz 60 (min sample_rate 48000 * (45/100))
  let x := min (tauF32 * cutoff / sample_rate) (99/100)
  let alpha := x / (1 + x)
  let mem := v.filter_state + alpha * (input - v.filter_state)
  let resonance := ratClamp params.filter_resonance 0 (95/100)
  (mem + resonance * (mem - input), { v with filter_state := mem })

/-- `VoiceState::unison_sample` from `synth.rs`: three-voice detuned unison
average (or a single tap when the detune is zero). -/
def VoiceState.unison_sample (_v : VoiceState) (ops : MathOps)
    (params : SynthParams) (base_phase : ℚ) : ℚ :=
  let detune :=
    min ((params.unison_spread_cents * (1 - params.autotune_amount)) / 1200) (2/10)
  let offsets : List ℚ := if 0 < detune then [-detune, 0, detune] else [0]
  let acc := (offsets.map (fun offset =>
    params.waveform.sample ops (ratFract (base_phase + offset)))).sum
  acc / (offsets.length : ℚ)

/-- `VoiceState::apply_instrument_color` from `synth.rs`. -/
def applyInstrumentColor (ops : MathOps) (sample base_phase : ℚ)
    (instrument : InstrumentKind) : ℚ :=
  match instrument with
  | .Keys => sample
  | .Bass =>
    let sub := ops.sin (tauF32 * (base_phase * (1/2)))
    ratClamp (sample * (75/100) + sub * (35/100)) (-1) 1
  | .Lead =>
    let overtone := ops.sin (tauF32 * (base_phase * 2)) * (2/10) + sample
    ops.tanh (overtone * (12/10))
  | .Pad => sample * (9/10)

/-- The vibrato-LFO / oscillator-phase / unison / instrument-coloration
portion of `VoiceState::next_sample` from `synth.rs` (the straight-line
code between the idle early-out and the noise crossfade): produces the
pre-noise signal and the voice with advanced LFO and oscillator phases. -/
def VoiceState.oscillate (v : VoiceState) (ops : MathOps)
    (params : SynthParams) (sample_rate : ℚ) : ℚ × VoiceState :=
  let vibrato_depth := params.vibrato_depth_semitones * (1 - params.autotune_amount)
  let vibrato := if 0 < vibrato_depth then ops.sin (tauF32 * v.lfo_phase) * vibrato_depth else 0
  let lfo1 := v.lfo_phase + params.vibrato_rate_hz / sample_rate
  let lfo2 := if 1 ≤ lfo1 then lfo1 - 1 else lfo1
  let freq := midiToFreq ops v.note * ops.pow2 (vibrato / 12)
  let ph1 := v.phase + freq / sample_rate
  let ph2 := if 1 ≤ ph1 then ph1 - 1 else ph1
  let v2 := { v with lfo_phase := lfo2, phase := ph2 }
  let base_phase := ph2
  let sample0 := v2.unison_sample ops params base_phase
  let sample1 := applyInstrumentColor ops sample0 base_phase params.instrument
  (sample1, v2)

/-- `VoiceState::next_sample` from `synth.rs`: one full per-voice sample —
envelope advance, early-out when idle, the oscillator stage above, optional
noise crossfade, one-pole filter, and the final envelope/gain scaling.
Returns the output sample and the updated voice. -/
def VoiceState.next_sample (v : VoiceState) (ops : MathOps)
    (params : SynthParams) (sample_rate : ℚ) : ℚ × VoiceState :=
  let v1 := v.advance_envelope params sample_rate
  if v1.stage = .Idle then (0, v1)
  else
    let osc := v1.oscillate ops params sample_rate
    let mixed :=
      if 0 < params.noise_mix then
        let nz := osc.2.next_noise
        (osc.1 * (1 - params.noise_mix) + nz.1 * params.noise_mix, nz.2)
      else osc
    let filtered := (mixed.2).apply_filter mixed.1 params sample_rate
    (filtered.1 * (filtered.2).env_level * params.gain, filtered.2)

/-- `struct SynthShared` from `synth.rs`: the parameters plus the
`BTreeSet<u8>` of pressed notes, modelled as an ascending duplicate-free
list. -/
structure SynthShared where
  params : SynthParams
  pressed_notes : List Nat
  deriving DecidableEq, Repr

/-- Ordered insertion into the ascending pressed-note list; models
`BTreeSet::insert`. -/
def insertAsc (n : Nat) : List Nat → List Nat
  | [] => [n]
  | x :: xs =>
    if n < x then n :: x :: xs
    else if n = x then x :: xs
    else x :: insertAsc n xs

/-- `SynthShared::press_note` from `synth.rs`. -/
def SynthShared.press_note (s : SynthShared) (note : Nat) : SynthShared :=
  { s with pressed_notes := insertAsc note s.pressed_notes }

/-- `SynthShared::release_note` from `synth.rs`. -/
def SynthShared.release_note (s : SynthShared) (note : Nat) : SynthShared :=
  { s with pressed_notes := s.pressed_notes.erase note }

/-- `SynthShared::is_pressed` from `synth.rs`. -/
def SynthShared.is_pressed (s : SynthShared) (note : Nat) : Bool :=
  s.pressed_notes.contains note

/-- `struct SynthSnapshot` from `synth.rs`. -/
structure SynthSnapshot where
  params : SynthParams
  pressed_notes : List Nat
  deriving DecidableEq, Repr

/-- `SynthShared::snapshot` from `synth.rs`. -/
def SynthShared.snapshot (s : SynthShared) : SynthSnapshot :=
  { params := s.params, pressed_notes := s.pressed_notes }

/-- `struct BiquadCoeffs` from `synth.rs` (already normalized by `a0`). -/
structure BiquadCoeffs where
  b0 : ℚ
  b1 : ℚ
  b2 : ℚ
  a1 : ℚ
  a2 : ℚ
  deriving DecidableEq, Repr

/-- `BiquadCoeffs::identity` from `synth.rs`. -/
def BiquadCoeffs.identity : BiquadCoeffs :=
  { b0 := 1, b1 := 0, b2 := 0, a1 := 0, a2 := 0 }

/-- `BiquadCoeffs::from_raw` from `synth.rs`: divide everything by `a0`,
falling back to `a0 = 1` when `|a0| < f32::EPSILON`. -/
def BiquadCoeffs.from_raw (b0 b1 b2 a0 a1 a2 : ℚ) : BiquadCoeffs :=
  let inv_a0 := if |a0| < epsF32 then 1 else 1 / a0
  { b0 := b0 * inv_a0, b1 := b1 * inv_a0, b2 := b2 * inv_a0,
    a1 := a1 * inv_a0, a2 := a2 * inv_a0 }

/-- `struct BiquadState` from `synth.rs`: coefficients plus the two
feedback memory cells of the transposed direct-form-II realization. -/
structure BiquadState where
  coeffs : BiquadCoeffs
  z1 : ℚ
  z2 : ℚ
  deriving DecidableEq, Repr

/-- `BiquadState::new` from `synth.rs`. -/
def BiquadState.new : BiquadState :=
  { coeffs := BiquadCoeffs.identity, z1 := 0, z2 := 0 }

/-- `BiquadState::set_coeffs` from `synth.rs`: swaps coefficients, leaves
`z1`/`z2` untouched. -/
def BiquadState.set_coeffs (b : BiquadState) (coeffs : BiquadCoeffs) : BiquadState :=
  { b with coeffs := coeffs }

/-- `BiquadState::process` from `synth.rs`:
`y = b0*x + z1; z1 = b1*x - a1*y + z2; z2 = b2*x - a2*y`. -/
def BiquadState.process (b : BiquadState) (input : ℚ) : ℚ × BiquadState :=
  let y := b.coeffs.b0 * input + b.z1
  ( y,
    { b with
      z1 := b.coeffs.b1 * input - b.coeffs.a1 * y + b.z2
      z2 := b.coeffs.b2 * input - b.coeffs.a2 * y } )

/-- `low_shelf_coeffs` from `synth.rs` (audio-EQ-cookbook low shelf with
fixed slope `√2`). -/
def lowShelfCoeffs (ops : MathOps) (sample_rate freq gain_db : ℚ) : BiquadCoeffs :=
  let freq := ratClamp freq 10 (sample_rate * (45/100))
  let a := ops.pow10 (gain_db / 40)
  let w0 := tauF32 * freq / sample_rate
  let cos_w0 := ops.cos w0
  let sin_w0 := ops.sin w0
  let sqrt_a := ops.sqrt a
  let alpha := sin_w0 / 2 * sqrt2F32
  let b0 := a * ((a + 1) - (a - 1) * cos_w0 + 2 * sqrt_a * alpha)
  let b1 := 2 * a * ((a - 1) - (a + 1) * cos_w0)
  let b2 := a * ((a + 1) - (a - 1) * cos_w0 - 2 * sqrt_a * alpha)
  let a0 := (a + 1) + (a - 1) * cos_w0 + 2 * sqrt_a * alpha
  let a1 := -2 * ((a - 1) + (a + 1) * cos_w0)
  let a2 := (a + 1) + (a - 1) * cos_w0 - 2 * sqrt_a * alpha
  BiquadCoeffs.from_raw b0 b1 b2 a0 a1 a2

/-- `high_shelf_coeffs` from `synth.rs`. -/
def highShelfCoeffs (ops : MathOps) (sample_rate freq gain_db : ℚ) : BiquadCoeffs :=
  let freq := ratClamp freq 10 (sample_rate * (45/100))
  let a := ops.pow10 (gain_db / 40)
  let w0 := tauF32 * freq / sample_rate
  let cos_w0 := ops.cos w0
  let sin_w0 := ops.sin w0
  let sqrt_a := ops.sqrt a
  let alpha := sin_w0 / 2 * sqrt2F32
  let b0 := a * ((a + 1) + (a - 1) * cos_w0 + 2 * sqrt_a * alpha)
  let b1 := -2 * a * ((a - 1) + (a + 1) * cos_w0)
  let b2 := a * ((a + 1) + (a - 1) * cos_w0 - 2 * sqrt_a * alpha)
  let a0 := (a + 1) - (a - 1) * cos_w0 + 2 * sqrt_a * alpha
  let a1 := 2 * ((a - 1) - (a + 1) * cos_w0)
  let a2 := (a + 1) - (a - 1) * cos_w0 - 2 * sqrt_a * alpha
  BiquadCoeffs.from_raw b0 b1 b2 a0 a1 a2

/-- `peaking_coeffs` from `synth.rs` (audio-EQ-cookbook peaking EQ). -/
def peakingCoeffs (ops : MathOps) (sample_rate freq q gain_db : ℚ) : BiquadCoeffs :=
  let freq := ratClamp freq 10 (sample_rate * (45/100))
  let q := ratClamp q (1/10) 4
  let a := ops.pow10 (gain_db / 40)
  let w0 := tauF32 * freq / sample_rate
  let cos_w0 := ops.cos w0
  let sin_w0 := ops.sin w0
  let alpha := sin_w0 / (2 * q)
  let b0 := 1 + alpha * a
  let b1 := -2 * cos_w0
  let b2 := 1 - alpha * a
  let a0 := 1 + alpha / a
  let a1 := -2 * cos_w0
  let a2 := 1 - alpha / a
  BiquadCoeffs.from_raw b0 b1 b2 a0 a1 a2

/-- `struct EqChain` from `synth.rs`. -/
structure EqChain where
  sample_rate : ℚ
  low : BiquadState
  mid : BiquadState
  high : BiquadState
  deriving DecidableEq, Repr

/-- `EqChain::new` from `synth.rs`. -/
def EqChain.new (sample_rate : ℚ) : EqChain :=
  { sample_rate := sample_rate
    low := BiquadState.new
    mid := BiquadState.new
    high := BiquadState.new }

/-- `EqChain::update` from `synth.rs`: recompute the three coefficient sets
from the parameters and swap them in without touching `z1`/`z2`. -/
def EqChain.update (c : EqChain) (ops : MathOps) (params : SynthParams) : EqChain :=
  let low := lowShelfCoeffs ops c.sample_rate params.eq_low_freq_hz params.eq_low_gain_db
  let mid := peakingCoeffs ops c.sample_rate params.eq_mid_freq_hz params.eq_mid_q
    params.eq_mid_gain_db
  let high := highShelfCoeffs ops c.sample_rate params.eq_high_freq_hz params.eq_high_gain_db
  { c with
    low := c.low.set_coeffs low
    mid := c.mid.set_coeffs mid
    high := c.high.set_coeffs high }

/-- `EqChain::process` from `synth.rs`: low shelf, then mid peak, then high
shelf, in series. -/
def EqChain.process (c : EqChain) (sample : ℚ) : ℚ × EqChain :=
  let low := c.low.process sample
  let mid := c.mid.process low.1
  let high := c.high.process mid.1
  (high.1, { c with low := low.2, mid := mid.2, high := high.2 })

/-- `struct SynthEngine` from `synth.rs`. -/
structure SynthEngine where
  voices : List VoiceState
  sample_rate : ℚ
  eq_chain : EqChain
  deriving DecidableEq, Repr

/-- `SynthEngine::new` from `synth.rs`. -/
def SynthEngine.new (sample_rate : ℚ) : SynthEngine :=
  { voices := [], sample_rate := sample_rate, eq_chain := EqChain.new sample_rate }

/-- `SynthEngine::sync_voices` from `synth.rs`: set every existing voice's
gate from the pressed-note list, then create (and gate on) one voice per
pressed note that has none. -/
def SynthEngine.sync_voices (e : SynthEngine) (pressed : List Nat) : SynthEngine :=
  let gated := e.voices.map (fun v => v.set_gate (pressed.contains v.note))
  let voices := pressed.foldl
    (fun acc note =>
      if acc.any (fun v => v.note == note) then acc
      else acc ++ [(VoiceState.new note).set_gate true])
    gated
  { e with voices := voices }

/-- `SynthEngine::next_sample` from `synth.rs`: synchronize voices against
the snapshot, advance every voice, sum the outputs, drop finished voices,
and run the mix through the EQ chain. -/
def SynthEngine.next_sample (e : SynthEngine) (ops : MathOps)
    (snapshot : SynthSnapshot) : ℚ × SynthEngine :=
  let e1 := e.sync_voices snapshot.pressed_notes
  let results := e1.voices.map (fun v => v.next_sample ops snapshot.params e1.sample_rate)
  let mix := (results.map Prod.fst).sum
  let voices := (results.map Prod.snd).filter (fun v => !v.is_finished)
  let processed := e1.eq_chain.process mix
  (processed.1, { e1 with voices := voices, eq_chain := processed.2 })

/-- `SynthEngine::update_eq` from `synth.rs`. -/
def SynthEngine.update_eq (e : SynthEngine) (ops : MathOps)
    (params : SynthParams) : SynthEngine :=
  { e with eq_chain := e.eq_chain.update ops params }

/-- `struct ScopeBuffer` from `scope.rs`: bounded visualization ring
buffer. -/
structure ScopeBuffer where
  samples : List ℚ
  capacity : Nat
  deriving DecidableEq, Repr

/-- `ScopeBuffer::new` from `scope.rs`. -/
def ScopeBuffer.new (capacity : Nat) : ScopeBuffer :=
  { samples := [], capacity := capacity }

/-- `ScopeBuffer::record` from `scope.rs`: push each sample, evicting the
oldest when full. -/
def ScopeBuffer.record (b : ScopeBuffer) (block : List ℚ) : ScopeBuffer :=
  block.foldl
    (fun acc sample =>
      let kept := if acc.samples.length == acc.capacity then acc.samples.tail else acc.samples
      { acc with samples := kept ++ [sample] })
    b

/-- `record_scope` from `audio.rs`: `if let Ok(mut buffer) = scope.lock()`
— record on success, silently skip when the lock cannot be acquired.
`lock_ok` is the outcome of `scope.lock()`. -/
def recordScope (lock_ok : Bool) (scope : ScopeBuffer) (block : List ℚ) : ScopeBuffer :=
  if lock_ok then scope.record block else scope

/-- `write_samples_f32` from `audio.rs`.  `shared_lock` is the outcome of
`shared.lock()` (an `Err` models a poisoned mutex; the same outcome is
reused for the periodic re-acquisitions, since poisoning is persistent).
The Rust code unwraps the lock with `.expect(...)`, so a poisoned lock
panics — modelled as `Except.error` — before any sample is rendered.
Returns the mono sample block, the updated engine, and the updated scope
buffer. -/
def writeSamplesF32 (ops : MathOps) (shared_lock : Except Unit SynthShared)
    (engine : SynthEngine) (frames : Nat) (scope_lock_ok : Bool)
    (scope : ScopeBuffer) : Except Unit (List ℚ × SynthEngine × ScopeBuffer) :=
  match shared_lock with
  | .error e => .error e
  | .ok shared =>
    let snap := shared.snapshot
    let start := engine.update_eq ops snap.params
    let stepped := (List.range frames).foldl
      (fun (acc : List ℚ × SynthEngine) i =>
        let e := if i % 64 == 0 then acc.2.update_eq ops snap.params else acc.2
        let out := e.next_sample ops snap
        (acc.1 ++ [out.1], out.2))
      ([], start)
    .ok (stepped.1, stepped.2, recordScope scope_lock_ok scope stepped.1)

/-- The per-voice invariant: whenever the gate is off, the stage is Idle or
Release. -/
def VoiceInv (v : VoiceState) : Prop :=
  v.gate = false → v.stage = .Idle ∨ v.stage = .Release

/-- `k` successive per-sample envelope updates. -/
def releaseIter (p : SynthParams) (sr : ℚ) (k : Nat) (v : VoiceState) : VoiceState :=
  (fun w => w.advance_envelope p sr)^[k] v

/-- A concrete voice for exercising the release tail: Sustain stage at
level `1/2` with the gate held. -/
def sustainHalfVoice : VoiceState :=
  { note := 60, phase := 0, env_level := 1/2, stage := .Sustain,
    gate := true, filter_state := 0, lfo_phase := 0, noise_seed := 0 }

/-- The default parameters with a one-second release. -/
def oneSecondReleaseParams : SynthParams :=
  { SynthParams.default with release_seconds := 1 }

/-- A concrete Attack-stage gated voice for exercising the noise path. -/
def attackVoice : VoiceState :=
  { VoiceState.new 60 with stage := .Attack, gate := true }

/-- A snapshot with the default parameters and no held notes. -/
def emptySnapshot : SynthSnapshot :=
  { params := SynthParams.default, pressed_notes := [] }

/-! ## Basic facts about the clamp -/

theorem ratClamp_nonneg {x lo hi : ℚ} (hlo : 0 ≤ lo) (hhi : 0 ≤ hi) :
    0 ≤ ratClamp x lo hi :=
  le_min hhi (le_trans hlo (le_max_left _ _))

theorem ratClamp_le {x lo hi : ℚ} : ratClamp x lo hi ≤ hi :=
  min_le_left _ _

/-! ## C1: the envelope level stays inside `[0, 1]` -/

/-- C1.  For every parameter set (including zero or negative
attack/decay/release times and any sustain level) and every voice whose
envelope level is in `[0, 1]`, one per-sample `advance_envelope` update
leaves the envelope level in `[0, 1]`: it never goes negative and never
exceeds `1`, in particular mid-Decay and mid-Release.  Since a fresh voice
starts at level `0`, every reachable voice state satisfies the
precondition, so the level is in `[0, 1]` after each update. -/
theorem advance_envelope_mem_unitInterval (params : SynthParams)
    (sample_rate : ℚ) (v : VoiceState) (hsr : 0 < sample_rate)
    (h0 : 0 ≤ v.env_level) (h1 : v.env_level ≤ 1) :
    0 ≤ (v.advance_envelope params sample_rate).env_level ∧
      (v.advance_envelope params sample_rate).env_level ≤ 1 := by
  unfold VoiceState.advance_envelope
  cases hst : v.stage with
  | Idle => simp
  | Attack =>
    set step : ℚ :=
      if params.attack_seconds ≤ 0 then 1
      else 1 / (params.attack_seconds * sample_rate) with hstep
    have hpos : 0 < step := by
      rw [hstep]
      split
      · norm_num
      · next h => exact div_pos one_pos (mul_pos (lt_of_not_le h) hsr)
    by_cases hc : (1 : ℚ) ≤ v.env_level + step
    · simp only [hc, if_pos]
      norm_num
    · simp only [hc, if_neg, not_false_iff]
      constructor
      · simpa using add_nonneg h0 hpos.le
      · simpa using le_of_not_le hc
  | Decay =>
    set target : ℚ := ratClamp params.sustain_level 0 1 with htarget
    have ht0 : 0 ≤ target := ratClamp_nonneg le_rfl zero_le_one
    have ht1 : target ≤ 1 := ratClamp_le
    set step : ℚ :=
      if params.decay_seconds ≤ 0 then 1
      else 1 / (params.decay_seconds * sample_rate) with hstep
    have hpos : 0 < step := by
      rw [hstep]
      split
      · norm_num
      · next h => exact div_pos one_pos (mul_pos (lt_of_not_le h) hsr)
    have hd : 0 ≤ step * (1 - target) := mul_nonneg hpos.le (by linarith)
    by_cases hc : v.env_level - step * (1 - target) ≤ target
    · simp only [hc, if_pos]
      exact ⟨ht0, ht1⟩
    · simp only [hc, if_neg, not_false_iff]
      have := lt_of_not_le hc
      constructor
      · linarith
      · linarith
  | Sustain =>
    refine ⟨?_, ?_⟩
    · simpa using @ratClamp_nonneg params.sustain_level 0 1 le_rfl zero_le_one
    · simpa using @ratClamp_le params.sustain_level 0 1
  | Release =>
    set step : ℚ :=
      if params.release_seconds ≤ 0 then 1
      else 1 / (params.release_seconds * sample_rate) with hstep
    have hpos : 0 < step := by
      rw [hstep]
      split
      · norm_num
      · next h => exact div_pos one_pos (mul_pos (lt_of_not_le h) hsr)
    by_cases hc : v.env_level - step ≤ 0
    · simp only [hc, if_pos]
      norm_num
    · simp only [hc, if_neg, not_false_iff]
      have := lt_of_not_le hc
      constructor
      · linarith
      · linarith

/-- Witness for C1: the theorem applied to a fresh voice for note 60 with
the default parameters at a 10 Hz sample rate. -/
theorem advance_envelope_mem_unitInterval_witness :
    0 ≤ ((VoiceState.new 60).advance_envelope SynthParams.default 10).env_level ∧
      ((VoiceState.new 60).advance_envelope SynthParams.default 10).env_level ≤ 1 :=
  advance_envelope_mem_unitInterval SynthParams.default 10 (VoiceState.new 60)
    (by norm_num) (by simp [VoiceState.new]) (by simp [VoiceState.new])

/-! ## C7: `update_eq` changes only the biquad coefficients -/

/-- C7.  For every engine state and every parameter set, `update_eq`
changes only the three biquads' coefficient fields: each biquad's feedback
memory cells `z1` and `z2`, the EQ chain's sample rate, the engine's
sample rate, and the entire voice vector (hence every voice's phase,
envelope level, stage, gate, filter memory, LFO phase, and noise seed) are
left unchanged. -/
theorem update_eq_preserves_state (ops : MathOps) (e : SynthEngine)
    (params : SynthParams) :
    (e.update_eq ops params).voices = e.voices ∧
    (e.update_eq ops params).sample_rate = e.sample_rate ∧
    (e.update_eq ops params).eq_chain.sample_rate = e.eq_chain.sample_rate ∧
    (e.update_eq ops params).eq_chain.low.z1 = e.eq_chain.low.z1 ∧
    (e.update_eq ops params).eq_chain.low.z2 = e.eq_chain.low.z2 ∧
    (e.update_eq ops params).eq_chain.mid.z1 = e.eq_chain.mid.z1 ∧
    (e.update_eq ops params).eq_chain.mid.z2 = e.eq_chain.mid.z2 ∧
    (e.update_eq ops params).eq_chain.high.z1 = e.eq_chain.high.z1 ∧
    (e.update_eq ops params).eq_chain.high.z2 = e.eq_chain.high.z2 :=
  ⟨rfl, rfl, rfl, rfl, rfl, rfl, rfl, rfl, rfl⟩

/-! ## C5: a voice is removed exactly when it is Idle with gate off -/

/-- C5.  The engine's per-sample step removes a voice from the pool exactly
when `is_finished` holds of it, and `is_finished` holds exactly when the
stage is Idle and the gate is off; in particular a voice still in its
Release tail (stage Release) is never removed. -/
theorem next_sample_removes_exactly_finished (ops : MathOps)
    (e : SynthEngine) (snapshot : SynthSnapshot) :
    ((e.next_sample ops snapshot).2.voices =
      (((e.sync_voices snapshot.pressed_notes).voices.map
        (fun v => (v.next_sample ops snapshot.params
          (e.sync_voices snapshot.pressed_notes).sample_rate).2)).filter
        (fun v => !v.is_finished))) ∧
    (∀ v : VoiceState, v.is_finished = true ↔ (v.stage = .Idle ∧ v.gate = false)) ∧
    (∀ v : VoiceState, v.stage = .Release → v.is_finished = false) := by
  refine ⟨?_, ?_, ?_⟩
  · simp [SynthEngine.next_sample, List.map_map]
    rfl
  · intro v
    cases hst : v.stage <;> cases hg : v.gate <;>
      simp [VoiceState.is_finished, hst, hg]
  · intro v h
    cases hg : v.gate <;> simp [VoiceState.is_finished, h, hg]

/-- Witness for C5: the theorem at a fresh 48 kHz engine with an empty
held-note snapshot, plus its Release-voice conjunct discharged at a
concrete mid-release voice. -/
theorem next_sample_removes_exactly_finished_witness :
    (((SynthEngine.new 48000).next_sample MathOps.flat emptySnapshot).2.voices =
      ((((SynthEngine.new 48000).sync_voices emptySnapshot.pressed_notes).voices.map
        (fun v => (v.next_sample MathOps.flat emptySnapshot.params
          ((SynthEngine.new 48000).sync_voices
            emptySnapshot.pressed_notes).sample_rate).2)).filter
        (fun v => !v.is_finished))) ∧
    ((VoiceState.mk 60 0 (1/2) .Release false 0 0 0).is_finished = false) := by
  have h := next_sample_removes_exactly_finished MathOps.flat (SynthEngine.new 48000)
    emptySnapshot
  exact ⟨h.1, h.2.2 (VoiceState.mk 60 0 (1/2) .Release false 0 0 0) rfl⟩

/-! ## C10: gate off implies stage Idle or Release, in every reachable state -/

theorem advance_envelope_gate (v : VoiceState) (p : SynthParams) (sr : ℚ) :
    (v.advance_envelope p sr).gate = v.gate := by
  unfold VoiceState.advance_envelope
  cases v.stage <;> dsimp only <;> split_ifs <;> rfl

theorem advance_envelope_stage_of_Idle (v : VoiceState) (p : SynthParams)
    (sr : ℚ) (h : v.stage = .Idle) : (v.advance_envelope p sr).stage = .Idle := by
  unfold VoiceState.advance_envelope
  rw [h]

theorem advance_envelope_stage_of_Release (v : VoiceState) (p : SynthParams)
    (sr : ℚ) (h : v.stage = .Release) :
    (v.advance_envelope p sr).stage = .Idle ∨
      (v.advance_envelope p sr).stage = .Release := by
  unfold VoiceState.advance_envelope
  rw [h]
  dsimp only
  split_ifs <;> simp

theorem voiceInv_advance_envelope {v : VoiceState} (p : SynthParams) (sr : ℚ)
    (h : VoiceInv v) : VoiceInv (v.advance_envelope p sr) := by
  intro hg
  rw [advance_envelope_gate] at hg
  rcases h hg with hst | hst
  · exact Or.inl (advance_envelope_stage_of_Idle v p sr hst)
  · exact advance_envelope_stage_of_Release v p sr hst

theorem voiceInv_set_gate {v : VoiceState} (g : Bool) (h : VoiceInv v) :
    VoiceInv (v.set_gate g) := by
  intro hg
  unfold VoiceState.set_gate at hg ⊢
  cases g
  · cases hvg : v.gate
    · simpa [hvg] using h hvg
    · simp only [hvg]
      by_cases hst : v.stage = EnvStage.Idle <;> simp [hst]
  · simp at hg

theorem oscillate_gate (v : VoiceState) (ops : MathOps) (p : SynthParams)
    (sr : ℚ) : (v.oscillate ops p sr).2.gate = v.gate := rfl

theorem oscillate_stage (v : VoiceState) (ops : MathOps) (p : SynthParams)
    (sr : ℚ) : (v.oscillate ops p sr).2.stage = v.stage := rfl

theorem oscillate_env_level (v : VoiceState) (ops : MathOps) (p : SynthParams)
    (sr : ℚ) : (v.oscillate ops p sr).2.env_level = v.env_level := rfl

theorem oscillate_noise_seed (v : VoiceState) (ops : MathOps) (p : SynthParams)
    (sr : ℚ) : (v.oscillate ops p sr).2.noise_seed = v.noise_seed := rfl

/-- `next_sample` leaves the gate alone and moves the stage exactly as
`advance_envelope` does. -/
theorem next_sample_gate_stage (v : VoiceState) (ops : MathOps)
    (p : SynthParams) (sr : ℚ) :
    ((v.next_sample ops p sr).2.gate = v.gate) ∧
    ((v.next_sample ops p sr).2.stage = (v.advance_envelope p sr).stage) := by
  unfold VoiceState.next_sample
  dsimp only
  split_ifs with h1 h2 <;>
    simp [VoiceState.next_noise, VoiceState.apply_filter, advance_envelope_gate,
      oscillate_gate, oscillate_stage]

theorem voiceInv_next_sample {v : VoiceState} (ops : MathOps)
    (p : SynthParams) (sr : ℚ) (h : VoiceInv v) :
    VoiceInv (v.next_sample ops p sr).2 := by
  intro hg
  rw [(next_sample_gate_stage v ops p sr).1] at hg
  rw [(next_sample_gate_stage v ops p sr).2]
  exact voiceInv_advance_envelope p sr h (by rw [advance_envelope_gate]; exact hg)

/-- Every voice present after the creation pass of `sync_voices` either was
already present (with its gate refreshed) or is a freshly created gated
voice. -/
theorem mem_sync_fold {pressed : List Nat} {acc : List VoiceState}
    {v : VoiceState}
    (h : v ∈ pressed.foldl
      (fun acc note =>
        if acc.any (fun w => w.note == note) then acc
        else acc ++ [(VoiceState.new note).set_gate true]) acc) :
    v ∈ acc ∨ ∃ n ∈ pressed, v = (VoiceState.new n).set_gate true := by
  induction pressed generalizing acc with
  | nil => exact Or.inl h
  | cons m rest ih =>
    simp only [List.foldl_cons] at h
    rcases ih h with hmem | ⟨n, hn, rfl⟩
    · by_cases hany : acc.any (fun w => w.note == m)
      · rw [if_pos hany] at hmem
        exact Or.inl hmem
      · rw [if_neg hany, List.mem_append] at hmem
        rcases hmem with hmem | hmem
        · exact Or.inl hmem
        · simp only [List.mem_singleton] at hmem
          exact Or.inr ⟨m, List.mem_cons_self m rest, hmem⟩
    · exact Or.inr ⟨n, List.mem_cons_of_mem m hn, rfl⟩

theorem voiceInv_mem_sync_voices {e : SynthEngine} {pressed : List Nat}
    (hInv : ∀ v ∈ e.voices, VoiceInv v) :
    ∀ v ∈ (e.sync_voices pressed).voices, VoiceInv v := by
  intro v hv
  unfold SynthEngine.sync_voices at hv
  rcases mem_sync_fold hv with hmem | ⟨n, _, rfl⟩
  · rcases List.mem_map.mp hmem with ⟨w, hw, rfl⟩
    exact voiceInv_set_gate _ (hInv w hw)
  · intro hg
    simp [VoiceState.set_gate, VoiceState.new] at hg

/-- C10.  The invariant "gate off implies stage Idle or Release" holds of
every voice in the pool: it is preserved by a full engine step (voice
synchronization, per-voice sample production, and retirement), and under it
a gate-on rising edge — which unconditionally sets the stage to Attack —
can only fire the transitions Idle → Attack or Release → Attack. -/
theorem voice_pool_gate_invariant (ops : MathOps) (e : SynthEngine)
    (snapshot : SynthSnapshot) (hInv : ∀ v ∈ e.voices, VoiceInv v) :
    (∀ v ∈ (e.next_sample ops snapshot).2.voices, VoiceInv v) ∧
    (∀ v : VoiceState, VoiceInv v → v.gate = false →
      (v.set_gate true).stage = .Attack ∧
        (v.stage = .Idle ∨ v.stage = .Release)) := by
  constructor
  · intro v hv
    unfold SynthEngine.next_sample at hv
    dsimp only at hv
    rcases List.mem_filter.mp hv with ⟨hmem, -⟩
    rcases List.mem_map.mp hmem with ⟨r, hr, rfl⟩
    rcases List.mem_map.mp hr with ⟨w, hw, rfl⟩
    exact voiceInv_next_sample ops snapshot.params _
      (voiceInv_mem_sync_voices hInv w hw)
  · intro v hv hg
    refine ⟨?_, hv hg⟩
    simp [VoiceState.set_gate, hg]

/-! ## C3: one voice per held note, new voices start in Attack, press is
idempotent -/

theorem set_gate_note (v : VoiceState) (g : Bool) : (v.set_gate g).note = v.note := by
  unfold VoiceState.set_gate
  dsimp only
  split_ifs <;> rfl

/-- The voice-creation fold of `sync_voices` only appends. -/
theorem sync_fold_eq_append (pressed : List Nat) (acc : List VoiceState) :
    ∃ ext, pressed.foldl
      (fun acc note =>
        if acc.any (fun w => w.note == note) then acc
        else acc ++ [(VoiceState.new note).set_gate true]) acc = acc ++ ext := by
  induction pressed generalizing acc with
  | nil => exact ⟨[], by simp⟩
  | cons m rest ih =>
    simp only [List.foldl_cons]
    by_cases hany : acc.any (fun w => w.note == m)
    · rw [if_pos hany]
      exact ih acc
    · rw [if_neg hany]
      rcases ih (acc ++ [(VoiceState.new m).set_gate true]) with ⟨ext, hext⟩
      exact ⟨(VoiceState.new m).set_gate true :: ext, by simpa using hext⟩

/-- The voice-creation fold preserves distinctness of the pool's notes. -/
theorem sync_fold_nodup (pressed : List Nat) (acc : List VoiceState)
    (hacc : (acc.map (fun v => v.note)).Nodup) :
    (((pressed.foldl
      (fun acc note =>
        if acc.any (fun w => w.note == note) then acc
        else acc ++ [(VoiceState.new note).set_gate true]) acc)).map
        (fun v => v.note)).Nodup := by
  induction pressed generalizing acc with
  | nil => exact hacc
  | cons m rest ih =>
    simp only [List.foldl_cons]
    by_cases hany : acc.any (fun w => w.note == m)
    · rw [if_pos hany]
      exact ih acc hacc
    · rw [if_neg hany]
      refine ih _ ?_
      have hnotmem : m ∉ acc.map (fun v => v.note) := by
        intro hmem
        rcases List.mem_map.mp hmem with ⟨w, hw, hnote⟩
        exact hany (List.any_eq_true.mpr ⟨w, hw, by simp [hnote]⟩)
      simp only [List.map_append, List.map_cons, List.map_nil]
      rw [List.nodup_append]
      refine ⟨hacc, by simp, ?_⟩
      intro a ha hb
      simp only [set_gate_note, VoiceState.new, List.mem_cons, List.not_mem_nil,
        or_false] at hb
      subst hb
      exact hnotmem ha

/-- Every pressed note has a voice after the creation fold. -/
theorem sync_fold_mem (pressed : List Nat) (acc : List VoiceState)
    {n : Nat} (hn : n ∈ pressed) :
    n ∈ ((pressed.foldl
      (fun acc note =>
        if acc.any (fun w => w.note == note) then acc
        else acc ++ [(VoiceState.new note).set_gate true]) acc)).map
        (fun v => v.note) := by
  induction pressed generalizing acc with
  | nil => cases hn
  | cons m rest ih =>
    simp only [List.foldl_cons]
    rcases List.mem_cons.mp hn with rfl | hrest
    · -- the fold over `rest` starts from an accumulator that contains `n`
      have hmem : n ∈ ((if acc.any (fun w => w.note == n) then acc
          else acc ++ [(VoiceState.new n).set_gate true]).map (fun v => v.note)) := by
        by_cases hany : acc.any (fun w => w.note == n)
        · rw [if_pos hany]
          rcases List.any_eq_true.mp hany with ⟨w, hw, hww⟩
          exact List.mem_map.mpr ⟨w, hw, by simpa using hww⟩
        · rw [if_neg hany]
          refine List.mem_map.mpr ⟨(VoiceState.new n).set_gate true, by simp, ?_⟩
          simp [set_gate_note, VoiceState.new]
      rcases sync_fold_eq_append rest
        (if acc.any (fun w => w.note == n) then acc
          else acc ++ [(VoiceState.new n).set_gate true]) with ⟨ext, hext⟩
      rw [hext]
      simp only [List.map_append, List.mem_append]
      exact Or.inl hmem
    · exact ih _ hrest

/-- A pressed note with no existing voice gets exactly the freshly created,
gated-on voice. -/
theorem sync_fold_new_voice (pressed : List Nat) (acc : List VoiceState)
    {n : Nat} (hn : n ∈ pressed) (hnone : ∀ v ∈ acc, v.note ≠ n) :
    (VoiceState.new n).set_gate true ∈ pressed.foldl
      (fun acc note =>
        if acc.any (fun w => w.note == note) then acc
        else acc ++ [(VoiceState.new note).set_gate true]) acc := by
  induction pressed generalizing acc with
  | nil => cases hn
  | cons m rest ih =>
    simp only [List.foldl_cons]
    by_cases hmn : m = n
    · subst hmn
      have hany : acc.any (fun w => w.note == m) = false := by
        rw [List.any_eq_false]
        intro w hw
        simp [hnone w hw]
      rw [if_neg (by simp [hany])]
      rcases sync_fold_eq_append rest (acc ++ [(VoiceState.new m).set_gate true])
        with ⟨ext, hext⟩
      rw [hext]
      simp
    · have hrest : n ∈ rest := by
        rcases List.mem_cons.mp hn with rfl | hrest
        · exact absurd rfl hmn
        · exact hrest
      by_cases hany : acc.any (fun w => w.note == m)
      · rw [if_pos hany]
        exact ih acc hrest hnone
      · rw [if_neg hany]
        refine ih _ hrest ?_
        intro v hv
        rcases List.mem_append.mp hv with hv | hv
        · exact hnone v hv
        · simp only [List.mem_singleton] at hv
          subst hv
          simpa [set_gate_note, VoiceState.new] using hmn

/-- `BTreeSet::insert` (ordered insertion) is idempotent. -/
theorem insertAsc_idem (n : Nat) (l : List Nat) :
    insertAsc n (insertAsc n l) = insertAsc n l := by
  induction l with
  | nil => simp [insertAsc]
  | cons x xs ih =>
    by_cases h1 : n < x
    · simp [insertAsc, h1, lt_irrefl]
    · by_cases h2 : n = x
      · subst h2
        simp [insertAsc, h1]
      · simp [insertAsc, h1, h2, ih]

/-- C3.  Starting from a pool whose voices have pairwise-distinct notes
(an invariant of reachable pools: voices are only ever created for notes
that have none), one `sync_voices` step leaves every held note with exactly
one voice in the pool; a held note that had no voice gets exactly the
freshly created voice, which is in the Attack stage; and `press_note` is
idempotent, so pressing a note twice with no intervening release yields the
same held-note set — and hence the same single voice — as pressing it
once. -/
theorem sync_voices_one_voice_per_note (e : SynthEngine) (pressed : List Nat)
    (hnodup : (e.voices.map (fun v => v.note)).Nodup) :
    (∀ n ∈ pressed,
      List.count n ((e.sync_voices pressed).voices.map (fun v => v.note)) = 1) ∧
    (∀ n ∈ pressed, (∀ v ∈ e.voices, v.note ≠ n) →
      ((VoiceState.new n).set_gate true ∈ (e.sync_voices pressed).voices ∧
        ((VoiceState.new n).set_gate true).stage = .Attack)) ∧
    (∀ (s : SynthShared) (n : Nat), (s.press_note n).press_note n = s.press_note n) := by
  have hgated : (((e.voices.map
      (fun v => v.set_gate (pressed.contains v.note)))).map (fun v => v.note)).Nodup := by
    rw [List.map_map]
    have hcomp : ((fun v : VoiceState => v.note) ∘
        fun v : VoiceState => v.set_gate (pressed.contains v.note)) =
        fun v : VoiceState => v.note := by
      funext v
      simp [Function.comp, set_gate_note]
    rw [hcomp]
    exact hnodup
  refine ⟨?_, ?_, ?_⟩
  · intro n hn
    simp only [SynthEngine.sync_voices]
    exact List.count_eq_one_of_mem (sync_fold_nodup pressed _ hgated)
      (sync_fold_mem pressed _ hn)
  · intro n hn hnone
    refine ⟨?_, by simp [VoiceState.new, VoiceState.set_gate]⟩
    simp only [SynthEngine.sync_voices]
    refine sync_fold_new_voice pressed _ hn ?_
    intro v hv
    rcases List.mem_map.mp hv with ⟨w, hw, rfl⟩
    rw [set_gate_note]
    exact hnone w hw
  · intro s n
    simp only [SynthShared.press_note]
    rw [insertAsc_idem]

/-- Witness for C3: the theorem applied to a fresh 48 kHz engine (empty
pool) and the snapshot holding note 60. -/
theorem sync_voices_one_voice_per_note_witness :
    (∀ n ∈ [60], List.count n
      (((SynthEngine.new 48000).sync_voices [60]).voices.map (fun v => v.note)) = 1) ∧
    (∀ n ∈ [60], (∀ v ∈ (SynthEngine.new 48000).voices, v.note ≠ n) →
      ((VoiceState.new n).set_gate true ∈
        ((SynthEngine.new 48000).sync_voices [60]).voices ∧
        ((VoiceState.new n).set_gate true).stage = .Attack)) ∧
    (∀ (s : SynthShared) (n : Nat), (s.press_note n).press_note n = s.press_note n) :=
  sync_voices_one_voice_per_note (SynthEngine.new 48000) [60]
    (by simp [SynthEngine.new])

/-! ## C4: release behaviour after a gate-off -/

/-- Full characterization of the envelope run of a voice sitting in the
Release stage with a positive level: for the first
`⌈env_level * release_seconds * sample_rate⌉` updates the voice stays in
Release with the level decreasing linearly, and from that update on it is
Idle at level `0`. -/
theorem release_run (p : SynthParams) (sr : ℚ) (w : VoiceState)
    (hw : w.stage = .Release) (hrel : 0 < p.release_seconds) (hsr : 0 < sr)
    (hL : 0 < w.env_level) :
    ∀ k, releaseIter p sr k w =
      if k < ⌈w.env_level * (p.release_seconds * sr)⌉₊
      then { w with env_level := w.env_level - k * (1 / (p.release_seconds * sr)) }
      else { w with env_level := 0, stage := .Idle } := by
  have hprod : 0 < p.release_seconds * sr := mul_pos hrel hsr
  have hN : 0 < ⌈w.env_level * (p.release_seconds * sr)⌉₊ :=
    Nat.ceil_pos.mpr (mul_pos hL hprod)
  intro k
  induction k with
  | zero =>
    rw [if_pos hN]
    simp [releaseIter]
  | succ k ih =>
    rw [releaseIter, Function.iterate_succ_apply']
    rw [releaseIter] at ih
    rw [ih]
    by_cases hk : k < ⌈w.env_level * (p.release_seconds * sr)⌉₊
    · have hklt : (k : ℚ) < w.env_level * (p.release_seconds * sr) := Nat.lt_ceil.mp hk
      rw [if_pos hk]
      by_cases hk1 : k + 1 < ⌈w.env_level * (p.release_seconds * sr)⌉₊
      · have hklt1 : ((k : ℚ) + 1) < w.env_level * (p.release_seconds * sr) := by
          have := Nat.lt_ceil.mp hk1
          push_cast at this
          linarith
        have hlvl : ¬ w.env_level - (k : ℚ) * (1 / (p.release_seconds * sr)) -
            1 / (p.release_seconds * sr) ≤ 0 := by
          rw [not_le, sub_sub, ← add_one_mul, sub_pos, mul_one_div,
            div_lt_iff hprod]
          linarith
        rw [if_pos hk1]
        simp only [VoiceState.advance_envelope, hw, not_le.mpr hrel, if_false]
        rw [if_neg hlvl]
        congr 1
        push_cast
        ring
      · have hge : w.env_level * (p.release_seconds * sr) ≤ (k : ℚ) + 1 := by
          have := Nat.ceil_le.mp (not_lt.mp hk1)
          push_cast at this
          linarith
        have hlvl : w.env_level - (k : ℚ) * (1 / (p.release_seconds * sr)) -
            1 / (p.release_seconds * sr) ≤ 0 := by
          rw [sub_sub, ← add_one_mul, sub_nonpos, mul_one_div,
            le_div_iff hprod]
          linarith
        rw [if_neg hk1]
        simp only [VoiceState.advance_envelope, hw, not_le.mpr hrel, if_false]
        rw [if_pos hlvl]
    · rw [if_neg hk, if_neg (by omega)]
      simp [VoiceState.advance_envelope]

/-- C4 (amended).  For every voice whose gate goes off while it is in
Attack, Decay, or Sustain with envelope level `L ∈ (0, 1]`: the voice
transitions to Release (never directly to Idle) with its level unchanged;
from that point the envelope level is monotonically non-increasing; for the
first `⌈L * release_seconds * sample_rate⌉ - 1` further updates the voice
is still in Release, and from update `⌈L * release_seconds * sample_rate⌉`
on it is Idle — so it reaches Idle exactly once, after
`⌈L * release_seconds * sample_rate⌉` updates (which equals
`release_seconds * sample_rate` within rounding exactly when the level at
release is `1`, e.g. a release out of a full-level Sustain). -/
theorem release_tail_behaviour (p : SynthParams) (sr : ℚ) (v : VoiceState)
    (hg : v.gate = true)
    (hst : v.stage = .Attack ∨ v.stage = .Decay ∨ v.stage = .Sustain)
    (hrel : 0 < p.release_seconds) (hsr : 0 < sr)
    (hL0 : 0 < v.env_level) :
    (v.set_gate false).stage = .Release ∧
    (v.set_gate false).env_level = v.env_level ∧
    (∀ k, (releaseIter p sr (k + 1) (v.set_gate false)).env_level ≤
      (releaseIter p sr k (v.set_gate false)).env_level) ∧
    (∀ k < ⌈v.env_level * (p.release_seconds * sr)⌉₊,
      (releaseIter p sr k (v.set_gate false)).stage = .Release) ∧
    (∀ k, ⌈v.env_level * (p.release_seconds * sr)⌉₊ ≤ k →
      (releaseIter p sr k (v.set_gate false)).stage = .Idle) := by
  have hnotidle : v.stage ≠ EnvStage.Idle := by
    rcases hst with h | h | h <;> rw [h] <;> intro hc <;> cases hc
  have hstage : (v.set_gate false).stage = .Release := by
    unfold VoiceState.set_gate
    simp [hg, hnotidle]
  have henv : (v.set_gate false).env_level = v.env_level := by
    unfold VoiceState.set_gate
    simp [hg, hnotidle]
  have hrun := release_run p sr (v.set_gate false) hstage hrel hsr
    (henv ▸ hL0)
  rw [henv] at hrun
  have hprod : 0 < p.release_seconds * sr := mul_pos hrel hsr
  have hstep : 0 ≤ 1 / (p.release_seconds * sr) := by positivity
  refine ⟨hstage, henv, ?_, ?_, ?_⟩
  · intro k
    rw [hrun k, hrun (k + 1)]
    by_cases hk1 : k + 1 < ⌈v.env_level * (p.release_seconds * sr)⌉₊
    · rw [if_pos hk1, if_pos (by omega)]
      have : (k : ℚ) * (1 / (p.release_seconds * sr)) ≤
          ((k : ℚ) + 1) * (1 / (p.release_seconds * sr)) := by
        nlinarith
      push_cast
      linarith
    · rw [if_neg hk1]
      by_cases hk : k < ⌈v.env_level * (p.release_seconds * sr)⌉₊
      · rw [if_pos hk]
        have hklt : (k : ℚ) < v.env_level * (p.release_seconds * sr) := Nat.lt_ceil.mp hk
        have : (k : ℚ) * (1 / (p.release_seconds * sr)) < v.env_level := by
          rw [mul_one_div, div_lt_iff₀ hprod]
          linarith
        linarith
      · rw [if_neg hk]
  · intro k hk
    rw [hrun k, if_pos hk]
    exact hstage
  · intro k hk
    rw [hrun k, if_neg (by omega)]

/-- Witness for C4's amended theorem: a voice released out of Sustain at
level `1/2` with a one-second release at a 10 Hz sample rate. -/
theorem release_tail_behaviour_witness :
    ((sustainHalfVoice.set_gate false).stage = .Release) ∧
    ((sustainHalfVoice.set_gate false).env_level = sustainHalfVoice.env_level) ∧
    (∀ k, (releaseIter oneSecondReleaseParams 10 (k + 1)
        (sustainHalfVoice.set_gate false)).env_level ≤
      (releaseIter oneSecondReleaseParams 10 k
        (sustainHalfVoice.set_gate false)).env_level) ∧
    (∀ k < ⌈sustainHalfVoice.env_level *
        (oneSecondReleaseParams.release_seconds * 10)⌉₊,
      (releaseIter oneSecondReleaseParams 10 k
        (sustainHalfVoice.set_gate false)).stage = .Release) ∧
    (∀ k, ⌈sustainHalfVoice.env_level *
        (oneSecondReleaseParams.release_seconds * 10)⌉₊ ≤ k →
      (releaseIter oneSecondReleaseParams 10 k
        (sustainHalfVoice.set_gate false)).stage = .Idle) :=
  release_tail_behaviour oneSecondReleaseParams 10 sustainHalfVoice
    rfl (by right; right; rfl) (by norm_num [oneSecondReleaseParams])
    (by norm_num) (by norm_num [sustainHalfVoice])

/-- Counterexample for C4 as stated: a voice released out of Sustain at
envelope level `1/2` with `release_seconds = 1` at a 10 Hz sample rate
enters Release on the gate-off, but reaches Idle after 5 further
per-sample updates, not after `release_seconds * sample_rate = 10` of
them (5 is not `10` "within rounding"). -/
theorem release_tail_sample_count_counterexample :
    ((sustainHalfVoice.set_gate false).stage = .Release) ∧
    ((releaseIter oneSecondReleaseParams 10 4
        (sustainHalfVoice.set_gate false)).stage = .Release) ∧
    ((releaseIter oneSecondReleaseParams 10 5
        (sustainHalfVoice.set_gate false)).stage = .Idle) ∧
    (oneSecondReleaseParams.release_seconds * 10 = 10) := by
  have hstage : (sustainHalfVoice.set_gate false).stage = .Release := by
    simp [sustainHalfVoice, VoiceState.set_gate]
  have henv : (sustainHalfVoice.set_gate false).env_level = 1/2 := by
    simp [sustainHalfVoice, VoiceState.set_gate]
  have hrel : oneSecondReleaseParams.release_seconds = 1 := rfl
  have hrun := release_run oneSecondReleaseParams 10 (sustainHalfVoice.set_gate false)
    hstage (by rw [hrel]; norm_num) (by norm_num) (by rw [henv]; norm_num)
  have hprod : (sustainHalfVoice.set_gate false).env_level *
      (oneSecondReleaseParams.release_seconds * 10) = 5 := by
    rw [henv, hrel]
    norm_num
  have hceil : ⌈(sustainHalfVoice.set_gate false).env_level *
      (oneSecondReleaseParams.release_seconds * 10)⌉₊ = 5 := by
    rw [hprod]
    simp
  refine ⟨hstage, ?_, ?_, by rw [hrel]; norm_num⟩
  · rw [hrun 4, hceil, if_pos (by norm_num)]
    exact hstage
  · rw [hrun 5, hceil, if_neg (by norm_num)]

/-- Witness for C10: the invariant theorem applied to a fresh engine at
48 kHz with an empty pool and a snapshot pressing note 60. -/
theorem voice_pool_gate_invariant_witness :
    (∀ v ∈ ((SynthEngine.new 48000).next_sample MathOps.flat
      { params := SynthParams.default, pressed_notes := [60] }).2.voices, VoiceInv v) ∧
    (∀ v : VoiceState, VoiceInv v → v.gate = false →
      (v.set_gate true).stage = .Attack ∧
        (v.stage = .Idle ∨ v.stage = .Release)) :=
  voice_pool_gate_invariant MathOps.flat (SynthEngine.new 48000)
    { params := SynthParams.default, pressed_notes := [60] }
    (by intro v hv; simp [SynthEngine.new] at hv)

/-! ## C2: the one-pole filter step -/

/-- C2 (amended).  For every input sample, parameter set, filter memory and
sample rate of at least `400/3` Hz (which keeps the cutoff clamp's bounds
ordered, `60 ≤ min(sample_rate, 48000) * 0.45`; below that, the Rust
`f32::clamp` call panics), the per-voice one-pole filter step computes
exactly: cutoff clamped to `[60, min(sample_rate, 48000) * 0.45]`,
`x = min(0.99, TAU * cutoff / sample_rate)`, `alpha = x / (1 + x)`; the
filter memory is updated to `mem + alpha * (input - mem)` and the output
is `mem' + r * (mem' - input)` with the resonance `r` clamped to
`[0, 0.95]`; no other voice field changes. -/
theorem apply_filter_formula (v : VoiceState) (input : ℚ) (p : SynthParams)
    (sr : ℚ) (hsr : 400/3 ≤ sr) :
    (ratClampChecked p.filter_cutoff_hz 60 (min sr 48000 * (45/100)) =
      some (ratClamp p.filter_cutoff_hz 60 (min sr 48000 * (45/100)))) ∧
    ((v.apply_filter input p sr).2.filter_state =
      v.filter_state +
        (min (99/100)
            (tauF32 * ratClamp p.filter_cutoff_hz 60 (min sr 48000 * (45/100)) / sr) /
          (1 + min (99/100)
            (tauF32 * ratClamp p.filter_cutoff_hz 60 (min sr 48000 * (45/100)) / sr))) *
        (input - v.filter_state)) ∧
    ((v.apply_filter input p sr).1 =
      (v.apply_filter input p sr).2.filter_state +
        ratClamp p.filter_resonance 0 (95/100) *
          ((v.apply_filter input p sr).2.filter_state - input)) ∧
    ((v.apply_filter input p sr).2 =
      { v with filter_state := (v.apply_filter input p sr).2.filter_state }) := by
  have hbounds : (60 : ℚ) ≤ min sr 48000 * (45/100) := by
    rcases min_cases sr (48000 : ℚ) with ⟨hmin, -⟩ | ⟨hmin, -⟩ <;> rw [hmin] <;> linarith
  refine ⟨?_, ?_, ?_, ?_⟩
  · rw [ratClampChecked, if_pos hbounds]
  · rw [VoiceState.apply_filter]
    rw [min_comm]
  · rfl
  · rfl

/-- Witness for C2's amended theorem: the default parameters at 48 kHz with
a fresh voice and input `1`. -/
theorem apply_filter_formula_witness :
    (ratClampChecked SynthParams.default.filter_cutoff_hz 60
        (min (48000 : ℚ) 48000 * (45/100)) =
      some (ratClamp SynthParams.default.filter_cutoff_hz 60
        (min (48000 : ℚ) 48000 * (45/100)))) ∧
    (((VoiceState.new 60).apply_filter 1 SynthParams.default 48000).2.filter_state =
      (VoiceState.new 60).filter_state +
        (min (99/100)
            (tauF32 * ratClamp SynthParams.default.filter_cutoff_hz 60
              (min (48000 : ℚ) 48000 * (45/100)) / 48000) /
          (1 + min (99/100)
            (tauF32 * ratClamp SynthParams.default.filter_cutoff_hz 60
              (min (48000 : ℚ) 48000 * (45/100)) / 48000))) *
        (1 - (VoiceState.new 60).filter_state)) ∧
    (((VoiceState.new 60).apply_filter 1 SynthParams.default 48000).1 =
      ((VoiceState.new 60).apply_filter 1 SynthParams.default 48000).2.filter_state +
        ratClamp SynthParams.default.filter_resonance 0 (95/100) *
          (((VoiceState.new 60).apply_filter 1 SynthParams.default 48000).2.filter_state - 1)) ∧
    (((VoiceState.new 60).apply_filter 1 SynthParams.default 48000).2 =
      { VoiceState.new 60 with filter_state :=
        ((VoiceState.new 60).apply_filter 1 SynthParams.default 48000).2.filter_state }) :=
  apply_filter_formula (VoiceState.new 60) 1 SynthParams.default 48000 (by norm_num)

/-- Counterexample for C2 as stated: at a sample rate of 100 Hz the cutoff
clamp's bounds are inverted (`min(100, 48000) * 0.45 = 45 < 60`), so the
Rust `f32::clamp` call inside `apply_filter` panics instead of computing
the claimed formula — the claim does not hold for *every* sample rate. -/
theorem apply_filter_low_sample_rate_counterexample :
    (ratClampChecked SynthParams.default.filter_cutoff_hz 60
      (min (100 : ℚ) 48000 * (45/100)) = none) ∧
    (min (100 : ℚ) 48000 * (45/100) < 60) := by
  constructor
  · rw [ratClampChecked, if_neg]
    norm_num
  · norm_num

/-! ## C9: the noise generator -/

theorem advance_envelope_noise_seed (v : VoiceState) (p : SynthParams)
    (sr : ℚ) : (v.advance_envelope p sr).noise_seed = v.noise_seed := by
  unfold VoiceState.advance_envelope
  cases v.stage <;> dsimp only <;> split_ifs <;> rfl

/-- C9.  The per-voice noise generator is the 32-bit LCG
`seed' = seed * 1664525 + 1013904223 (mod 2^32)`; every value it emits lies
in `[-1, 1]`; a fresh voice's seed is derived from its note number; and the
noise is consumed and crossfaded into the signal by
`signal * (1 - noise_mix) + noise * noise_mix` exactly when
`noise_mix > 0` — otherwise the seed is left untouched and the signal
passes to the filter unmixed. -/
theorem noise_lcg_spec (ops : MathOps) (p : SynthParams) (sr : ℚ) :
    (∀ v : VoiceState, (v.next_noise).2.noise_seed =
      (v.noise_seed * 1664525 + 1013904223) % u32Mod) ∧
    (∀ v : VoiceState, -1 ≤ (v.next_noise).1 ∧ (v.next_noise).1 ≤ 1) ∧
    (∀ n : Nat, (VoiceState.new n).noise_seed = n * 1104607 % u32Mod) ∧
    (∀ v : VoiceState, p.noise_mix ≤ 0 →
      (v.next_sample ops p sr).2.noise_seed = v.noise_seed) ∧
    (∀ v : VoiceState, p.noise_mix ≤ 0 →
      (v.advance_envelope p sr).stage ≠ .Idle →
      v.next_sample ops p sr =
        ((((v.advance_envelope p sr).oscillate ops p sr).2.apply_filter
            ((v.advance_envelope p sr).oscillate ops p sr).1 p sr).1 *
          (((v.advance_envelope p sr).oscillate ops p sr).2.apply_filter
            ((v.advance_envelope p sr).oscillate ops p sr).1 p sr).2.env_level *
          p.gain,
          (((v.advance_envelope p sr).oscillate ops p sr).2.apply_filter
            ((v.advance_envelope p sr).oscillate ops p sr).1 p sr).2)) ∧
    (∀ (v : VoiceState) (osc nz : ℚ × VoiceState),
      0 < p.noise_mix →
      (v.advance_envelope p sr).stage ≠ .Idle →
      osc = (v.advance_envelope p sr).oscillate ops p sr →
      nz = osc.2.next_noise →
      v.next_sample ops p sr =
        ((nz.2.apply_filter (osc.1 * (1 - p.noise_mix) + nz.1 * p.noise_mix) p sr).1 *
          (nz.2.apply_filter (osc.1 * (1 - p.noise_mix) + nz.1 * p.noise_mix) p sr).2.env_level *
          p.gain,
          (nz.2.apply_filter (osc.1 * (1 - p.noise_mix) + nz.1 * p.noise_mix) p sr).2)) := by
  refine ⟨fun v => rfl, ?_, fun n => rfl, ?_, ?_, ?_⟩
  · intro v
    have hk : (((v.noise_seed * 1664525 + 1013904223) % u32Mod) >>> 9) &&& 8388607 ≤ 8388607 :=
      Nat.and_le_right
    have hkq : (((((v.noise_seed * 1664525 + 1013904223) % u32Mod) >>> 9) &&& 8388607 : Nat) : ℚ)
        ≤ 8388607 := by exact_mod_cast hk
    have hk0 : (0 : ℚ) ≤
        (((((v.noise_seed * 1664525 + 1013904223) % u32Mod) >>> 9) &&& 8388607 : Nat) : ℚ) := by
      positivity
    have hdiv1 : (((((v.noise_seed * 1664525 + 1013904223) % u32Mod) >>> 9) &&& 8388607 : Nat) : ℚ)
        / 8388607 ≤ 1 := by
      rw [div_le_one (by norm_num)]
      exact hkq
    have hdiv0 : (0 : ℚ) ≤
        (((((v.noise_seed * 1664525 + 1013904223) % u32Mod) >>> 9) &&& 8388607 : Nat) : ℚ)
        / 8388607 := by positivity
    simp only [VoiceState.next_noise]
    constructor
    · linarith
    · linarith
  · intro v hmix
    simp only [VoiceState.next_sample]
    split_ifs with h1 h2
    · exact advance_envelope_noise_seed v p sr
    · exact absurd h2 (not_lt.mpr hmix)
    · show (VoiceState.apply_filter _ _ p sr).2.noise_seed = v.noise_seed
      rw [VoiceState.apply_filter]
      show ((v.advance_envelope p sr).oscillate ops p sr).2.noise_seed = v.noise_seed
      rw [oscillate_noise_seed]
      exact advance_envelope_noise_seed v p sr
  · intro v hmix hstage
    simp only [VoiceState.next_sample]
    rw [if_neg hstage, if_neg (not_lt.mpr hmix)]
  · intro v osc nz hmix hstage hosc hnz
    subst hosc
    subst hnz
    simp only [VoiceState.next_sample]
    rw [if_neg hstage, if_pos hmix]

/-- Witness for C9: the theorem applied with flat math ops, the default
parameters (noise_mix `3/100 > 0`), and a 10 Hz sample rate; the crossfade
conjunct is exercised at a concrete Attack-stage voice (non-idle after the
envelope update). -/
theorem noise_lcg_spec_witness :
    ((attackVoice.next_noise).2.noise_seed =
      (attackVoice.noise_seed * 1664525 + 1013904223) % u32Mod) ∧
    (-1 ≤ (attackVoice.next_noise).1 ∧ (attackVoice.next_noise).1 ≤ 1) ∧
    ((VoiceState.new 60).noise_seed = 60 * 1104607 % u32Mod) ∧
    (attackVoice.next_sample MathOps.flat SynthParams.default 10 =
      (((((attackVoice.advance_envelope SynthParams.default 10).oscillate MathOps.flat SynthParams.default 10).2.next_noise).2.apply_filter (((attackVoice.advance_envelope SynthParams.default 10).oscillate MathOps.flat SynthParams.default 10).1 * (1 - SynthParams.default.noise_mix) + (((attackVoice.advance_envelope SynthParams.default 10).oscillate MathOps.flat SynthParams.default 10).2.next_noise).1 * SynthParams.default.noise_mix) SynthParams.default 10).1 * ((((attackVoice.advance_envelope SynthParams.default 10).oscillate MathOps.flat SynthParams.default 10).2.next_noise).2.apply_filter (((attackVoice.advance_envelope SynthParams.default 10).oscillate MathOps.flat SynthParams.default 10).1 * (1 - SynthParams.default.noise_mix) + (((attackVoice.advance_envelope SynthParams.default 10).oscillate MathOps.flat SynthParams.default 10).2.next_noise).1 * SynthParams.default.noise_mix) SynthParams.default 10).2.env_level * SynthParams.default.gain,
        ((((attackVoice.advance_envelope SynthParams.default 10).oscillate MathOps.flat SynthParams.default 10).2.next_noise).2.apply_filter (((attackVoice.advance_envelope SynthParams.default 10).oscillate MathOps.flat SynthParams.default 10).1 * (1 - SynthParams.default.noise_mix) + (((attackVoice.advance_envelope SynthParams.default 10).oscillate MathOps.flat SynthParams.default 10).2.next_noise).1 * SynthParams.default.noise_mix) SynthParams.default 10).2)) := by
  have hstage : (attackVoice.advance_envelope SynthParams.default 10).stage ≠ .Idle := by
    have hd : (attackVoice.advance_envelope SynthParams.default 10).stage = .Decay := by
      rw [VoiceState.advance_envelope]
      norm_num [attackVoice, VoiceState.new, SynthParams.default]
    rw [hd]
    intro hc
    cases hc
  have h := noise_lcg_spec MathOps.flat SynthParams.default 10
  exact ⟨h.1 attackVoice, h.2.1 attackVoice, h.2.2.1 60,
    h.2.2.2.2.2 attackVoice _ _ (by norm_num [SynthParams.default]) hstage rfl rfl⟩

/-! ## C6: the EQ cascade is the identity at 0 dB gains -/

theorem le_ratClamp {x lo hi : ℚ} (h : lo ≤ hi) : lo ≤ ratClamp x lo hi :=
  le_min h (le_max_left _ _)

/-- When the raw feed-forward coefficients coincide with the raw feedback
coefficients (including `b0 = a0`), normalization yields `b0 = 1`,
`b1 = a1`, `b2 = a2`. -/
theorem from_raw_eq_coeffs (b0 b1 b2 a0 a1 a2 : ℚ)
    (hb0 : b0 = a0) (hb1 : b1 = a1) (hb2 : b2 = a2)
    (ha0 : epsF32 ≤ |a0|) (hne : a0 ≠ 0) :
    (BiquadCoeffs.from_raw b0 b1 b2 a0 a1 a2).b0 = 1 ∧
    (BiquadCoeffs.from_raw b0 b1 b2 a0 a1 a2).b1 =
      (BiquadCoeffs.from_raw b0 b1 b2 a0 a1 a2).a1 ∧
    (BiquadCoeffs.from_raw b0 b1 b2 a0 a1 a2).b2 =
      (BiquadCoeffs.from_raw b0 b1 b2 a0 a1 a2).a2 := by
  subst hb0
  subst hb1
  subst hb2
  unfold BiquadCoeffs.from_raw
  rw [if_neg (not_lt.mpr ha0)]
  refine ⟨?_, rfl, rfl⟩
  exact mul_one_div_cancel hne

/-- A biquad section whose normalized feed-forward coefficients equal its
feedback coefficients, sitting on zeroed memory, is the identity filter:
it emits its input and its state is unchanged. -/
theorem biquadState_identity_process (b : BiquadState)
    (hb0 : b.coeffs.b0 = 1) (hb1 : b.coeffs.b1 = b.coeffs.a1)
    (hb2 : b.coeffs.b2 = b.coeffs.a2) (h1 : b.z1 = 0) (h2 : b.z2 = 0)
    (x : ℚ) : b.process x = (x, b) := by
  obtain ⟨⟨b0, b1, b2, a1, a2⟩, z1, z2⟩ := b
  simp only [BiquadState.process, Prod.mk.injEq, BiquadState.mk.injEq,
    BiquadCoeffs.mk.injEq] at *
  subst hb0
  subst hb1
  subst hb2
  subst h1
  subst h2
  refine ⟨by ring, ?_⟩
  norm_num

theorem lowShelf_zero_gain_coeffs (ops : MathOps) (sr freq : ℚ)
    (hpow : ops.pow10 0 = 1) (hsqrt : ops.sqrt 1 = 1)
    (hsin_bound : ∀ x : ℚ, -1 ≤ ops.sin x ∧ ops.sin x ≤ 1) :
    (lowShelfCoeffs ops sr freq 0).b0 = 1 ∧
    (lowShelfCoeffs ops sr freq 0).b1 = (lowShelfCoeffs ops sr freq 0).a1 ∧
    (lowShelfCoeffs ops sr freq 0).b2 = (lowShelfCoeffs ops sr freq 0).a2 := by
  simp only [lowShelfCoeffs]
  rw [show ((0 : ℚ) / 40) = 0 from by norm_num, hpow, hsqrt]
  have hs := hsin_bound (tauF32 * ratClamp freq 10 (sr * (45/100)) / sr)
  have hsq : (0 : ℚ) ≤ sqrt2F32 ∧ sqrt2F32 ≤ 3/2 := by
    norm_num [sqrt2F32]
  have ha0 : (1/2 : ℚ) ≤ (1 + 1) + (1 - 1) * ops.cos
        (tauF32 * ratClamp freq 10 (sr * (45/100)) / sr) +
      2 * 1 * (ops.sin (tauF32 * ratClamp freq 10 (sr * (45/100)) / sr) / 2 * sqrt2F32) := by
    nlinarith [hs.1, hs.2, hsq.1, hsq.2]
  refine from_raw_eq_coeffs _ _ _ _ _ _ (by ring) (by ring) (by ring) ?_ (by linarith)
  rw [abs_of_pos (by linarith)]
  rw [show epsF32 = 1/8388608 from rfl]
  linarith

theorem highShelf_zero_gain_coeffs (ops : MathOps) (sr freq : ℚ)
    (hpow : ops.pow10 0 = 1) (hsqrt : ops.sqrt 1 = 1)
    (hsin_bound : ∀ x : ℚ, -1 ≤ ops.sin x ∧ ops.sin x ≤ 1) :
    (highShelfCoeffs ops sr freq 0).b0 = 1 ∧
    (highShelfCoeffs ops sr freq 0).b1 = (highShelfCoeffs ops sr freq 0).a1 ∧
    (highShelfCoeffs ops sr freq 0).b2 = (highShelfCoeffs ops sr freq 0).a2 := by
  simp only [highShelfCoeffs]
  rw [show ((0 : ℚ) / 40) = 0 from by norm_num, hpow, hsqrt]
  have hs := hsin_bound (tauF32 * ratClamp freq 10 (sr * (45/100)) / sr)
  have hsq : (0 : ℚ) ≤ sqrt2F32 ∧ sqrt2F32 ≤ 3/2 := by
    norm_num [sqrt2F32]
  have ha0 : (1/2 : ℚ) ≤ (1 + 1) - (1 - 1) * ops.cos
        (tauF32 * ratClamp freq 10 (sr * (45/100)) / sr) +
      2 * 1 * (ops.sin (tauF32 * ratClamp freq 10 (sr * (45/100)) / sr) / 2 * sqrt2F32) := by
    nlinarith [hs.1, hs.2, hsq.1, hsq.2]
  refine from_raw_eq_coeffs _ _ _ _ _ _ (by ring) (by ring) (by ring) ?_ (by linarith)
  rw [abs_of_pos (by linarith)]
  rw [show epsF32 = 1/8388608 from rfl]
  linarith

theorem peaking_zero_gain_coeffs (ops : MathOps) (sr freq q : ℚ)
    (hsr : 100 ≤ sr) (hpow : ops.pow10 0 = 1)
    (hsin_bound : ∀ x : ℚ, -1 ≤ ops.sin x ∧ ops.sin x ≤ 1)
    (hsin_pos : ∀ x : ℚ, 0 < x → x ≤ tauF32 * (45/100) → 0 ≤ ops.sin x) :
    (peakingCoeffs ops sr freq q 0).b0 = 1 ∧
    (peakingCoeffs ops sr freq q 0).b1 = (peakingCoeffs ops sr freq q 0).a1 ∧
    (peakingCoeffs ops sr freq q 0).b2 = (peakingCoeffs ops sr freq q 0).a2 := by
  simp only [peakingCoeffs]
  rw [show ((0 : ℚ) / 40) = 0 from by norm_num, hpow]
  have hsrpos : (0 : ℚ) < sr := by linarith
  have hfc : (10 : ℚ) ≤ ratClamp freq 10 (sr * (45/100)) := by
    refine le_ratClamp ?_
    linarith
  have hfc2 : ratClamp freq 10 (sr * (45/100)) ≤ sr * (45/100) := ratClamp_le
  have htau : (0 : ℚ) < tauF32 ∧ tauF32 ≤ 7 := by
    norm_num [tauF32]
  have hw0pos : 0 < tauF32 * ratClamp freq 10 (sr * (45/100)) / sr := by
    apply div_pos _ hsrpos
    nlinarith [htau.1]
  have hw0le : tauF32 * ratClamp freq 10 (sr * (45/100)) / sr ≤ tauF32 * (45/100) := by
    rw [div_le_iff₀ hsrpos]
    nlinarith [htau.1]
  have hs0 := hsin_pos _ hw0pos hw0le
  have hs1 := (hsin_bound (tauF32 * ratClamp freq 10 (sr * (45/100)) / sr)).2
  have hqlo : (1/10 : ℚ) ≤ ratClamp q (1/10) 4 := le_ratClamp (by norm_num)
  have halpha : 0 ≤ ops.sin (tauF32 * ratClamp freq 10 (sr * (45/100)) / sr) /
      (2 * ratClamp q (1/10) 4) := by
    apply div_nonneg hs0
    linarith
  have ha0 : (1 : ℚ) ≤ 1 + ops.sin (tauF32 * ratClamp freq 10 (sr * (45/100)) / sr) /
      (2 * ratClamp q (1/10) 4) / 1 := by
    rw [div_one]
    linarith
  refine from_raw_eq_coeffs _ _ _ _ _ _ (by ring) (by ring) (by ring) ?_ (by linarith)
  rw [abs_of_pos (by linarith)]
  rw [show epsF32 = 1/8388608 from rfl]
  linarith

/-- C6.  With all three EQ band gains at 0 dB, for every band frequency and
Q setting (and any sample rate of at least 100 Hz) each recomputed biquad
section has `b0 = 1`, `b1 = a1` and `b2 = a2` after normalization — the
identity filter — and consequently the freshly-constructed (zeroed-memory)
three-section cascade emits exactly its input with its state unchanged.
The hypotheses on `ops` hold of the `f32` routines: `10^0 = 1`, `√1 = 1`,
`sin` bounded by `[-1, 1]`, and `sin` nonnegative on `(0, 0.45·TAU]` (an
interval below π). -/
theorem eq_chain_identity_at_zero_gain (ops : MathOps) (sr : ℚ)
    (p : SynthParams) (hsr : 100 ≤ sr)
    (hpow : ops.pow10 0 = 1) (hsqrt : ops.sqrt 1 = 1)
    (hsin_bound : ∀ x : ℚ, -1 ≤ ops.sin x ∧ ops.sin x ≤ 1)
    (hsin_pos : ∀ x : ℚ, 0 < x → x ≤ tauF32 * (45/100) → 0 ≤ ops.sin x)
    (hlow : p.eq_low_gain_db = 0) (hmid : p.eq_mid_gain_db = 0)
    (hhigh : p.eq_high_gain_db = 0) (input : ℚ) :
    ((lowShelfCoeffs ops sr p.eq_low_freq_hz p.eq_low_gain_db).b0 = 1 ∧
      (lowShelfCoeffs ops sr p.eq_low_freq_hz p.eq_low_gain_db).b1 =
        (lowShelfCoeffs ops sr p.eq_low_freq_hz p.eq_low_gain_db).a1 ∧
      (lowShelfCoeffs ops sr p.eq_low_freq_hz p.eq_low_gain_db).b2 =
        (lowShelfCoeffs ops sr p.eq_low_freq_hz p.eq_low_gain_db).a2) ∧
    ((peakingCoeffs ops sr p.eq_mid_freq_hz p.eq_mid_q p.eq_mid_gain_db).b0 = 1 ∧
      (peakingCoeffs ops sr p.eq_mid_freq_hz p.eq_mid_q p.eq_mid_gain_db).b1 =
        (peakingCoeffs ops sr p.eq_mid_freq_hz p.eq_mid_q p.eq_mid_gain_db).a1 ∧
      (peakingCoeffs ops sr p.eq_mid_freq_hz p.eq_mid_q p.eq_mid_gain_db).b2 =
        (peakingCoeffs ops sr p.eq_mid_freq_hz p.eq_mid_q p.eq_mid_gain_db).a2) ∧
    ((highShelfCoeffs ops sr p.eq_high_freq_hz p.eq_high_gain_db).b0 = 1 ∧
      (highShelfCoeffs ops sr p.eq_high_freq_hz p.eq_high_gain_db).b1 =
        (highShelfCoeffs ops sr p.eq_high_freq_hz p.eq_high_gain_db).a1 ∧
      (highShelfCoeffs ops sr p.eq_high_freq_hz p.eq_high_gain_db).b2 =
        (highShelfCoeffs ops sr p.eq_high_freq_hz p.eq_high_gain_db).a2) ∧
    (((EqChain.new sr).update ops p).process input =
      (input, (EqChain.new sr).update ops p)) := by
  rw [hlow, hmid, hhigh]
  have hlowc := lowShelf_zero_gain_coeffs ops sr p.eq_low_freq_hz hpow hsqrt hsin_bound
  have hmidc := peaking_zero_gain_coeffs ops sr p.eq_mid_freq_hz p.eq_mid_q hsr hpow
    hsin_bound hsin_pos
  have hhighc := highShelf_zero_gain_coeffs ops sr p.eq_high_freq_hz hpow hsqrt hsin_bound
  refine ⟨hlowc, hmidc, hhighc, ?_⟩
  have hchain_low : ((EqChain.new sr).update ops p).low =
      { coeffs := lowShelfCoeffs ops sr p.eq_low_freq_hz 0, z1 := 0, z2 := 0 } := by
    simp [EqChain.new, EqChain.update, BiquadState.new, BiquadState.set_coeffs, hlow]
  have hchain_mid : ((EqChain.new sr).update ops p).mid =
      { coeffs := peakingCoeffs ops sr p.eq_mid_freq_hz p.eq_mid_q 0, z1 := 0, z2 := 0 } := by
    simp [EqChain.new, EqChain.update, BiquadState.new, BiquadState.set_coeffs, hmid]
  have hchain_high : ((EqChain.new sr).update ops p).high =
      { coeffs := highShelfCoeffs ops sr p.eq_high_freq_hz 0, z1 := 0, z2 := 0 } := by
    simp [EqChain.new, EqChain.update, BiquadState.new, BiquadState.set_coeffs, hhigh]
  have hplow : ((EqChain.new sr).update ops p).low.process input =
      (input, ((EqChain.new sr).update ops p).low) := by
    rw [hchain_low]
    exact biquadState_identity_process _ hlowc.1 hlowc.2.1 hlowc.2.2 rfl rfl input
  have hpmid : ((EqChain.new sr).update ops p).mid.process input =
      (input, ((EqChain.new sr).update ops p).mid) := by
    rw [hchain_mid]
    exact biquadState_identity_process _ hmidc.1 hmidc.2.1 hmidc.2.2 rfl rfl input
  have hphigh : ((EqChain.new sr).update ops p).high.process input =
      (input, ((EqChain.new sr).update ops p).high) := by
    rw [hchain_high]
    exact biquadState_identity_process _ hhighc.1 hhighc.2.1 hhighc.2.2 rfl rfl input
  simp only [EqChain.process, hplow, hpmid, hphigh]

/-- Witness for C6: the theorem at 48 kHz with the default parameters
(whose three EQ gains are 0 dB), flat math ops, and input `1`. -/
theorem eq_chain_identity_at_zero_gain_witness :
    (((EqChain.new 48000).update MathOps.flat SynthParams.default).process 1 =
      (1, (EqChain.new 48000).update MathOps.flat SynthParams.default)) :=
  (eq_chain_identity_at_zero_gain MathOps.flat 48000 SynthParams.default
    (by norm_num) rfl rfl
    (fun x => by norm_num [MathOps.flat])
    (fun x hx hx2 => by norm_num [MathOps.flat])
    rfl rfl rfl 1).2.2.2

/-! ## C8: lock-acquisition failure on the audio path -/

/-- C8 (amended).  If acquiring the shared model lock fails (poisoned
mutex) during an audio buffer render, the audio callback panics — the
`.expect("Synth parameters poisoned")` unwrap — rather than rendering
silence; no samples are produced for that buffer.  If acquiring the
visualization buffer lock fails, recording is simply skipped for that
block (the scope buffer is left unchanged), and on success the block is
recorded. -/
theorem write_samples_poisoned_lock_behaviour (ops : MathOps)
    (engine : SynthEngine) (frames : Nat) (scope_lock_ok : Bool)
    (scope : ScopeBuffer) (block : List ℚ) :
    (writeSamplesF32 ops (Except.error ()) engine frames scope_lock_ok scope =
      Except.error ()) ∧
    (recordScope false scope block = scope) ∧
    (recordScope true scope block = scope.record block) :=
  ⟨rfl, rfl, rfl⟩

/-- Counterexample for C8 as stated: with the model lock poisoned, a
4-frame render with a fresh 48 kHz engine does not return a (silent)
buffer at all — the callback dies with the propagated panic, which is not
"renders silence for the affected buffer and continues without
crashing". -/
theorem write_samples_poisoned_lock_counterexample :
    (writeSamplesF32 MathOps.flat (Except.error ()) (SynthEngine.new 48000) 4 true
        (ScopeBuffer.new 16) = Except.error ()) ∧
    (writeSamplesF32 MathOps.flat (Except.error ()) (SynthEngine.new 48000) 4 true
        (ScopeBuffer.new 16) ≠
      Except.ok ([0, 0, 0, 0], SynthEngine.new 48000,
        (ScopeBuffer.new 16).record [0, 0, 0, 0])) := by
  refine ⟨rfl, ?_⟩
  intro hc
  cases hc

end AngelSynth
